import Mathlib

/-!
Verification of the probe-and-report protocol of the MicroPython
multi-webrepl monitoring scripts (gpio_monitor.py, i2c_scanner.py,
wifi_scanner.py, system_monitor.py).

Each probe is embedded as a Lean function over an environment record whose
fields model the fallible hardware accessors (pin reads, bus scans, wifi
scan, memory/frequency queries).  A fallible Python call is an
`Except String` value; a Python `try/except Exception` block is the
explicit `pytry` combinator.  Clock reads (`time.time()`) are modelled as
infallible integer-valued reads, one per call site.  JSON payloads are the
`JValue` type and `json.dumps` is modelled by `jsonDumps` (compact Python
default separators; the only abstraction is that non-ASCII characters are
not `\uXXXX`-escaped, which does not affect any character below 0x20).
-/

/-- A JSON value as produced by the probes: integers, strings, arrays and
objects with insertion-ordered fields (Python dict order). -/
inductive JValue : Type where
  | jnum : Int → JValue
  | jstr : String → JValue
  | jarr : List JValue → JValue
  | jobj : List (String × JValue) → JValue

/-- Decimal digit character, `chr(48 + d)` for `d ≤ 9`. -/
def digitChar (d : Nat) : Char := Char.ofNat (48 + d)

/-- Digit-list core of decimal rendering; `fuel` bounds the recursion
depth and any `fuel ≥ 1 + log10 n` yields the digits of `n`. -/
def natDecCore : Nat → Nat → List Char
  | 0, _ => []
  | fuel + 1, n =>
    if n < 10 then [digitChar n]
    else natDecCore fuel (n / 10) ++ [digitChar (n % 10)]

/-- Decimal rendering of a natural number, as Python `str` of a
non-negative int. -/
def natDec (n : Nat) : String := String.mk (natDecCore (n + 1) n)

/-- Decimal rendering of an integer, as Python `str(int)` /
`json.dumps` of an int. -/
def intDec (i : Int) : String :=
  if i < 0 then "-" ++ natDec i.natAbs else natDec i.toNat

/-- Lowercase hexadecimal digit character: `0-9` then `a-f`. -/
def hexDigit (d : Nat) : Char :=
  if d < 10 then Char.ofNat (48 + d) else Char.ofNat (87 + d)

/-- Digit-list core of lowercase hexadecimal rendering, fuel-bounded. -/
def natHexCore : Nat → Nat → List Char
  | 0, _ => []
  | fuel + 1, n =>
    if n < 16 then [hexDigit n]
    else natHexCore fuel (n / 16) ++ [hexDigit (n % 16)]

/-- Lowercase hexadecimal rendering of a natural number (no padding). -/
def natHex (n : Nat) : String := String.mk (natHexCore (n + 1) n)

/-- Python `'%02x' % b`: lowercase hex padded with zeros to width two. -/
def byteHex (b : Nat) : String :=
  if b < 16 then "0" ++ String.singleton (hexDigit b) else natHex b

/-- JSON escaping of one character, as CPython `json.dumps` for code
points below 128 (quote, backslash, the short control escapes, `\u00XX`
for the remaining control characters); other characters pass through. -/
def escapeChar (c : Char) : String :=
  if c = '"' then "\\\""
  else if c = '\\' then "\\\\"
  else if c = '\n' then "\\n"
  else if c = '\r' then "\\r"
  else if c = '\t' then "\\t"
  else if c = Char.ofNat 8 then "\\b"
  else if c = Char.ofNat 12 then "\\f"
  else if c.toNat < 32 then "\\u00" ++ byteHex c.toNat
  else String.singleton c

/-- JSON escaping of a character list. -/
def escapeList : List Char → String
  | [] => ""
  | c :: cs => escapeChar c ++ escapeList cs

/-- A JSON string literal: quotes around the escaped contents. -/
def jstrLit (s : String) : String := "\"" ++ escapeList s.data ++ "\""

mutual

/-- `json.dumps` with Python's default separators `', '` and `': '`. -/
def jsonDumps : JValue → String
  | JValue.jnum n => intDec n
  | JValue.jstr s => jstrLit s
  | JValue.jarr xs => "[" ++ dumpsList xs ++ "]"
  | JValue.jobj fs => "\x7b" ++ dumpsFields fs ++ "\x7d"

/-- Serialization of the elements of a JSON array, comma-separated. -/
def dumpsList : List JValue → String
  | [] => ""
  | [x] => jsonDumps x
  | x :: y :: tl => jsonDumps x ++ ", " ++ dumpsList (y :: tl)

/-- Serialization of the fields of a JSON object, comma-separated. -/
def dumpsFields : List (String × JValue) → String
  | [] => ""
  | [(k, v)] => jstrLit k ++ ": " ++ jsonDumps v
  | (k, v) :: f :: tl => jstrLit k ++ ": " ++ jsonDumps v ++ ", " ++ dumpsFields (f :: tl)

end

/-- A Python `try: body except Exception as e: handler(e)` block around a
fallible computation. -/
def pytry (body : Except String JValue) (handler : String → Except String JValue) :
    Except String JValue :=
  match body with
  | Except.ok v => Except.ok v
  | Except.error e => handler e

/-! ## GPIO probe (gpio_monitor.py) -/

/-- Environment of the GPIO probe: `readPin p` models
`Pin(p, Pin.IN).value()` — construction and read of pin `p`, either its
0/1 level or the exception message. -/
structure GpioEnv : Type where
  readPin : Nat → Except String Int

/-- The fixed candidate pin list hardcoded in `get_gpio_states`. -/
def pin_numbers : List Nat := [2, 4, 5, 16, 17, 18, 19, 21, 22, 23, 25, 26, 27, 32, 33]

/-- The dict key `f'pin_{pin_num}'`. -/
def pinLabel (p : Nat) : String := "pin_" ++ natDec p

/-- The per-pin loop of `get_gpio_states`: each pin is read under its own
`try/except`; failing pins are skipped, successful ones are appended in
order. -/
def gpio_entries (env : GpioEnv) : List Nat → List (String × JValue)
  | [] => []
  | p :: ps =>
    match env.readPin p with
    | Except.ok v => (pinLabel p, JValue.jnum v) :: gpio_entries env ps
    | Except.error _ => gpio_entries env ps

/-- `get_gpio_states`: builds the pin-state dict over the fixed candidate
list inside an outer `try/except` whose handler returns
`{'error': str(e)}`. -/
def get_gpio_states (env : GpioEnv) : Except String JValue :=
  pytry (Except.ok (JValue.jobj (gpio_entries env pin_numbers)))
    (fun e => Except.ok (JValue.jobj [("error", JValue.jstr e)]))

/-- `send_gpio_states`: the marker line `__GPIO_STATE__` followed by the
JSON payload, the sole argument of the probe's `print`. -/
def send_gpio_states (env : GpioEnv) : Except String String :=
  match get_gpio_states env with
  | Except.ok v => Except.ok ("__GPIO_STATE__" ++ jsonDumps v)
  | Except.error e => Except.error e

/-! ## I2C probe (i2c_scanner.py) -/

/-- One entry of the hardcoded `i2c_configs` list: bus id, SCL pin,
SDA pin. -/
structure I2CConfig : Type where
  id : Nat
  scl : Nat
  sda : Nat

/-- Environment of the I2C probe: `scanBus c` models
`I2C(c.id, scl=Pin(c.scl), sda=Pin(c.sda)).scan()` — bus construction
plus address scan, either the device address list or the exception
message. -/
structure I2CEnv : Type where
  scanBus : I2CConfig → Except String (List Int)

/-- The fixed bus-configuration list hardcoded in `scan_i2c_devices`. -/
def i2c_configs : List I2CConfig := [⟨0, 22, 21⟩, ⟨1, 25, 26⟩]

/-- The inner device loop: append each scanned address not already in
`found`. -/
def addNew : List Int → List Int → List Int
  | found, [] => found
  | found, d :: ds => addNew (if d ∈ found then found else found ++ [d]) ds

/-- The configuration loop of `scan_i2c_devices`: each configuration is
initialized and scanned under its own `try/except`; a failing
configuration is skipped (`continue`) and the accumulated list is kept. -/
def i2c_accum (env : I2CEnv) : List I2CConfig → List Int → List Int
  | [], found => found
  | c :: cs, found =>
    match env.scanBus c with
    | Except.ok devices => i2c_accum env cs (addNew found devices)
    | Except.error _ => i2c_accum env cs found

/-- The deduplicated address list accumulated over a configuration
list, starting empty. -/
def i2c_scan_over (env : I2CEnv) (configs : List I2CConfig) : List Int :=
  i2c_accum env configs []

/-- `scan_i2c_devices`: the accumulated address list over the fixed
configurations inside an outer `try/except` whose handler returns
`{'error': str(e)}`. -/
def scan_i2c_devices (env : I2CEnv) : Except String JValue :=
  pytry (Except.ok (JValue.jarr ((i2c_scan_over env i2c_configs).map JValue.jnum)))
    (fun e => Except.ok (JValue.jobj [("error", JValue.jstr e)]))

/-- `send_i2c_scan`: the marker line `__I2C_DEVICES__` followed by the
JSON payload. -/
def send_i2c_scan (env : I2CEnv) : Except String String :=
  match scan_i2c_devices env with
  | Except.ok v => Except.ok ("__I2C_DEVICES__" ++ jsonDumps v)
  | Except.error e => Except.error e

/-! ## Wi-Fi probe (wifi_scanner.py) -/

/-- One tuple of `wlan.scan()`: SSID bytes, BSSID bytes, channel, RSSI
and the driver's security ordinal. -/
structure WifiNet : Type where
  ssidBytes : List Nat
  bssid : List Nat
  channel : Int
  rssi : Int
  security : Int

/-- Environment of the Wi-Fi probe: `activate` models
`WLAN(STA_IF)` construction plus `wlan.active(True)`; `scan` models
`wlan.scan()`; `decodeUtf8` models `bytes.decode('utf-8')`, which raises
on invalid UTF-8. -/
structure WifiEnv : Type where
  activate : Except String Unit
  scan : Except String (List WifiNet)
  decodeUtf8 : List Nat → Except String String

/-- `':'.join(['%02x' % b for b in net[1]])`. -/
def bssidStr : List Nat → String
  | [] => ""
  | [b] => byteHex b
  | b :: b2 :: bs => byteHex b ++ ":" ++ bssidStr (b2 :: bs)

/-- `security_map.get(security, 'Unknown')` over the fixed five-entry
dict. -/
def securityLabel (s : Int) : String :=
  if s = 0 then "Open"
  else if s = 1 then "WEP"
  else if s = 2 then "WPA-PSK"
  else if s = 3 then "WPA2-PSK"
  else if s = 4 then "WPA/WPA2-PSK"
  else "Unknown"

/-- `net[0].decode('utf-8') if net[0] else ''`: empty SSID bytes are
falsy and give the empty string without decoding. -/
def ssidVal (env : WifiEnv) (net : WifiNet) : Except String String :=
  if net.ssidBytes = [] then Except.ok "" else env.decodeUtf8 net.ssidBytes

/-- The loop body formatting one scanned network into its record. -/
def format_net (env : WifiEnv) (net : WifiNet) : Except String JValue :=
  match ssidVal env net with
  | Except.error e => Except.error e
  | Except.ok ssid =>
    Except.ok (JValue.jobj
      [("ssid", JValue.jstr ssid),
       ("bssid", JValue.jstr (bssidStr net.bssid)),
       ("channel", JValue.jnum net.channel),
       ("rssi", JValue.jnum net.rssi),
       ("security", JValue.jstr (securityLabel net.security))])

/-- The `for net in networks` loop: records are appended in scan order;
the loop runs inside the probe-level `try`, so the first formatting
failure aborts the whole loop. -/
def format_networks (env : WifiEnv) : List WifiNet → Except String (List JValue)
  | [] => Except.ok []
  | n :: ns =>
    match format_net env n with
    | Except.error e => Except.error e
    | Except.ok r =>
      match format_networks env ns with
      | Except.error e => Except.error e
      | Except.ok rs => Except.ok (r :: rs)

/-- The body of the probe-level `try` of `scan_wifi_networks`. -/
def scan_wifi_body (env : WifiEnv) : Except String JValue :=
  match env.activate with
  | Except.error e => Except.error e
  | Except.ok _ =>
    match env.scan with
    | Except.error e => Except.error e
    | Except.ok nets =>
      match format_networks env nets with
      | Except.error e => Except.error e
      | Except.ok recs => Except.ok (JValue.jarr recs)

/-- `scan_wifi_networks`: the formatted network list inside an outer
`try/except` whose handler returns `{'error': str(e)}`. -/
def scan_wifi_networks (env : WifiEnv) : Except String JValue :=
  pytry (scan_wifi_body env)
    (fun e => Except.ok (JValue.jobj [("error", JValue.jstr e)]))

/-- `send_wifi_scan`: the marker line `__WIFI_SCAN__` followed by the
JSON payload. -/
def send_wifi_scan (env : WifiEnv) : Except String String :=
  match scan_wifi_networks env with
  | Except.ok v => Except.ok ("__WIFI_SCAN__" ++ jsonDumps v)
  | Except.error e => Except.error e

/-! ## System probe (system_monitor.py) -/

/-- Environment of the System probe: `mem_free`, `mem_alloc` model the
`gc` allocator queries, `freq` models `machine.freq()`, `hasTemp` models
`hasattr(machine, 'temperature')`, `temperature` models
`machine.temperature()`; `timeTry` and `timeErr` are the values of the
clock read `time.time()` at the success-path and error-path call sites
(clock reads are modelled as infallible). -/
structure SystemEnv : Type where
  mem_free : Except String Int
  mem_alloc : Except String Int
  freq : Except String Int
  hasTemp : Bool
  temperature : Except String Int
  timeTry : Int
  timeErr : Int

/-- The body of the outer `try` of `get_system_metrics`: the metrics dict
literal, then the inner `try` that appends `temp` only when
`hasattr(machine, 'temperature')` holds and the read succeeds. -/
def collect_metrics (env : SystemEnv) : Except String JValue :=
  match env.mem_free with
  | Except.error e => Except.error e
  | Except.ok mf =>
    match env.mem_alloc with
    | Except.error e => Except.error e
    | Except.ok ma =>
      match env.freq with
      | Except.error e => Except.error e
      | Except.ok fr =>
        Except.ok (JValue.jobj
          ([("memory", JValue.jobj [("free", JValue.jnum mf), ("allocated", JValue.jnum ma)]),
            ("freq", JValue.jnum fr),
            ("timestamp", JValue.jnum env.timeTry)] ++
           (if env.hasTemp then
              match env.temperature with
              | Except.ok t => [("temp", JValue.jnum t)]
              | Except.error _ => []
            else [])))

/-- `get_system_metrics`: metric collection inside an outer `try/except`
whose handler returns `{'error': str(e), 'timestamp': time.time()}`. -/
def get_system_metrics (env : SystemEnv) : Except String JValue :=
  pytry (collect_metrics env)
    (fun e => Except.ok (JValue.jobj
      [("error", JValue.jstr e), ("timestamp", JValue.jnum env.timeErr)]))

/-- `send_metrics`: the marker line `__MONITOR_DATA__` followed by the
JSON payload. -/
def send_metrics (env : SystemEnv) : Except String String :=
  match get_system_metrics env with
  | Except.ok v => Except.ok ("__MONITOR_DATA__" ++ jsonDumps v)
  | Except.error e => Except.error e

/-- The closed set of sentinel tags of the four probes. -/
def markerTags : List String :=
  ["__GPIO_STATE__", "__I2C_DEVICES__", "__MONITOR_DATA__", "__WIFI_SCAN__"]

/-! ## First-discovery-order deduplication -/

/-- First-occurrence deduplication of a traversal relative to an
already-seen prefix: mirrors the membership test of the device loop. -/
def pdedup : List Int → List Int → List Int
  | _, [] => []
  | seen, x :: xs => if x ∈ seen then pdedup seen xs else x :: pdedup (seen ++ [x]) xs

/-- Keep each element at the position of its first occurrence and drop
every later duplicate: the specification-side reading of
"first-discovery order". -/
def dedupFirst : List Int → List Int
  | [] => []
  | x :: xs => x :: (dedupFirst xs).filter (fun y => decide (y ≠ x))

/-- Concatenation of the successful scans of a configuration list, in
configuration order then scan order; a failing configuration
contributes nothing. -/
def flattenSucc (env : I2CEnv) : List I2CConfig → List Int
  | [] => []
  | c :: cs =>
    (match env.scanBus c with
     | Except.ok ds => ds
     | Except.error _ => []) ++ flattenSucc env cs

/-- A string with no embedded newline character. -/
abbrev noNL (s : String) : Prop := '\n' ∉ s.data

/-- The environment of spec Scenario A: pin 2 reads level 1, every other
pin read raises. -/
def gpioEnvA : GpioEnv :=
  ⟨fun p => if p = 2 then Except.ok 1 else Except.error "pin read failed"⟩

/-- Environment in which every pin read raises. -/
def gpioEnvFail : GpioEnv := ⟨fun _ => Except.error "unreadable"⟩

/-- Environment whose two buses report overlapping in-range devices. -/
def i2cEnvW4 : I2CEnv :=
  ⟨fun c => if c.id = 0 then Except.ok [60, 104, 60] else Except.ok [104, 80]⟩

/-- The environment of spec Scenario B: bus config 0 yields 0x3C and
0x68, bus config 1 fails to initialize. -/
def i2cEnvB : I2CEnv :=
  ⟨fun c => if c.id = 0 then Except.ok [60, 104] else Except.error "bus init failed"⟩

/-- Environment whose memory query raises; the clock reads 5 on the
success path and 9 on the error path. -/
def sysEnvErr : SystemEnv :=
  ⟨Except.error "gc unavailable", Except.ok 0, Except.ok 0, false, Except.ok 0, 5, 9⟩

/-- Environment of spec Scenario D: all metrics succeed, no temperature
attribute. -/
def sysEnvOk : SystemEnv :=
  ⟨Except.ok 1000, Except.ok 500, Except.ok 160000000, false, Except.ok 0, 42, 43⟩

/-- A concrete scanned network: SSID bytes "hi", a six-byte BSSID,
channel 6, RSSI -40, security ordinal 3. -/
def wifiNetW : WifiNet := ⟨[104, 105], [170, 187, 204, 1, 2, 3], 6, -40, 3⟩

/-- Environment returning exactly `wifiNetW` with a decoder that yields
"hi". -/
def wifiEnvW : WifiEnv := ⟨Except.ok (), Except.ok [wifiNetW], fun _ => Except.ok "hi"⟩

/-- A network whose record formats successfully. -/
def wifiNetOkW : WifiNet := ⟨[104, 105], [1, 2, 3, 4, 5, 6], 1, -30, 0⟩

/-- A network whose SSID bytes fail UTF-8 decoding. -/
def wifiNetBadW : WifiNet := ⟨[255], [6, 5, 4, 3, 2, 1], 2, -60, 1⟩

/-- Environment whose scan returns one good and one undecodable
network. -/
def wifiEnvBad : WifiEnv :=
  ⟨Except.ok (), Except.ok [wifiNetOkW, wifiNetBadW],
   fun bs => if bs = [104, 105] then Except.ok "hi" else Except.error "invalid utf-8"⟩

theorem addNew_eq (ds : List Int) :
    ∀ found, addNew found ds = found ++ pdedup found ds := by
  induction ds with
  | nil => intro found; simp [addNew, pdedup]
  | cons d ds ih =>
    intro found
    by_cases h : d ∈ found
    · simp [addNew, pdedup, h, ih found]
    · simp [addNew, pdedup, h, ih (found ++ [d])]

theorem pdedup_append (xs ys : List Int) :
    ∀ seen, pdedup seen (xs ++ ys) =
      pdedup seen xs ++ pdedup (seen ++ pdedup seen xs) ys := by
  induction xs with
  | nil => intro seen; simp [pdedup]
  | cons x xs ih =>
    intro seen
    by_cases h : x ∈ seen
    · simp [pdedup, h, ih seen]
    · simp [pdedup, h, ih (seen ++ [x])]

theorem mem_pdedup {a : Int} (xs : List Int) :
    ∀ seen, a ∈ pdedup seen xs ↔ a ∈ xs ∧ a ∉ seen := by
  induction xs with
  | nil => intro seen; simp [pdedup]
  | cons x xs ih =>
    intro seen
    by_cases h : x ∈ seen
    · rw [pdedup, if_pos h, ih seen]
      constructor
      · rintro ⟨hx, hs⟩; exact ⟨List.mem_cons_of_mem x hx, hs⟩
      · rintro ⟨hx, hs⟩
        rcases List.mem_cons.mp hx with rfl | hx
        · exact absurd h hs
        · exact ⟨hx, hs⟩
    · rw [pdedup, if_neg h]
      constructor
      · intro hmem
        rcases List.mem_cons.mp hmem with rfl | hmem
        · exact ⟨List.mem_cons_self a xs, h⟩
        · rcases (ih (seen ++ [x])).mp hmem with ⟨hx, hs⟩
          simp only [List.mem_append, List.mem_singleton, not_or] at hs
          exact ⟨List.mem_cons_of_mem x hx, hs.1⟩
      · rintro ⟨hx, hs⟩
        by_cases hax : a = x
        · exact hax ▸ List.mem_cons_self x _
        · rcases List.mem_cons.mp hx with rfl | hx
          · exact absurd rfl hax
          · refine List.mem_cons_of_mem x ((ih (seen ++ [x])).mpr ⟨hx, ?_⟩)
            simp only [List.mem_append, List.mem_singleton, not_or]
            exact ⟨hs, hax⟩

theorem nodup_pdedup (xs : List Int) : ∀ seen, (pdedup seen xs).Nodup := by
  induction xs with
  | nil => intro seen; simp [pdedup]
  | cons x xs ih =>
    intro seen
    by_cases h : x ∈ seen
    · rw [pdedup, if_pos h]; exact ih seen
    · rw [pdedup, if_neg h, List.nodup_cons]
      refine ⟨fun hmem => ?_, ih (seen ++ [x])⟩
      have := (mem_pdedup xs (seen ++ [x])).mp hmem
      exact this.2 (by simp)

theorem pdedup_eq_filter (xs : List Int) :
    ∀ seen, pdedup seen xs = (dedupFirst xs).filter (fun y => decide (y ∉ seen)) := by
  induction xs with
  | nil => intro seen; simp [pdedup, dedupFirst]
  | cons x xs ih =>
    intro seen
    by_cases h : x ∈ seen
    · rw [pdedup, if_pos h, ih seen, dedupFirst]
      have hx : (decide (x ∉ seen)) = false := by simp [h]
      rw [List.filter_cons, hx, List.filter_filter]
      refine List.filter_congr fun y hy => ?_
      by_cases hy1 : y ∈ seen
      · simp [hy1]
      · have : y ≠ x := fun e => hy1 (e ▸ h)
        simp [hy1, this]
    · rw [pdedup, if_neg h, ih (seen ++ [x]), dedupFirst]
      have hx : (decide (x ∉ seen)) = true := by simp [h]
      rw [List.filter_cons, hx, List.filter_filter]
      refine congrArg (List.cons x) (List.filter_congr fun y hy => ?_)
      by_cases hy1 : y ∈ seen <;> by_cases hy2 : y = x <;>
        simp [hy1, hy2, List.mem_append]

theorem pdedup_nil_eq (xs : List Int) : pdedup [] xs = dedupFirst xs := by
  rw [pdedup_eq_filter xs []]
  refine (List.filter_congr fun y _ => by simp).trans (List.filter_true _)

theorem i2c_accum_eq (env : I2CEnv) (cs : List I2CConfig) :
    ∀ found, i2c_accum env cs found = found ++ pdedup found (flattenSucc env cs) := by
  induction cs with
  | nil => intro found; simp [i2c_accum, flattenSucc, pdedup]
  | cons c cs ih =>
    intro found
    cases hc : env.scanBus c with
    | ok ds =>
      rw [i2c_accum]
      simp only [hc]
      rw [ih (addNew found ds), addNew_eq ds found, flattenSucc]
      simp only [hc]
      rw [pdedup_append, List.append_assoc]
    | error e =>
      rw [i2c_accum]
      simp only [hc]
      rw [ih found, flattenSucc]
      simp only [hc, List.nil_append]

theorem i2c_scan_over_eq (env : I2CEnv) (configs : List I2CConfig) :
    i2c_scan_over env configs = dedupFirst (flattenSucc env configs) := by
  rw [i2c_scan_over, i2c_accum_eq env configs [], List.nil_append, pdedup_nil_eq]

theorem mem_flattenSucc {a : Int} (env : I2CEnv) (cs : List I2CConfig) :
    a ∈ flattenSucc env cs ↔
      ∃ c ∈ cs, ∃ ds, env.scanBus c = Except.ok ds ∧ a ∈ ds := by
  induction cs with
  | nil => simp [flattenSucc]
  | cons c cs ih =>
    rw [flattenSucc]
    cases hc : env.scanBus c with
    | ok ds =>
      simp only [List.mem_append, ih, List.mem_cons]
      constructor
      · rintro (hd | ⟨c2, hc2, ds2, hok, hmem⟩)
        · exact ⟨c, Or.inl rfl, ds, hc, hd⟩
        · exact ⟨c2, Or.inr hc2, ds2, hok, hmem⟩
      · rintro ⟨c2, rfl | hc2, ds2, hok, hmem⟩
        · rw [hc] at hok; cases hok; exact Or.inl hmem
        · exact Or.inr ⟨c2, hc2, ds2, hok, hmem⟩
    | error e =>
      simp only [List.nil_append, ih, List.mem_cons]
      constructor
      · rintro ⟨c2, hc2, ds2, hok, hmem⟩
        exact ⟨c2, Or.inr hc2, ds2, hok, hmem⟩
      · rintro ⟨c2, rfl | hc2, ds2, hok, hmem⟩
        · rw [hc] at hok; cases hok
        · exact ⟨c2, hc2, ds2, hok, hmem⟩

/-! ## No newline in serialized payloads -/

theorem noNL_append {a b : String} (ha : noNL a) (hb : noNL b) : noNL (a ++ b) := by
  simp only [noNL, String.data_append, List.mem_append, not_or]
  exact ⟨ha, hb⟩

theorem digitChar_ne_nl (n : Nat) (h : n < 10) : digitChar n ≠ '\n' := by
  interval_cases n <;> decide

theorem hexDigit_ne_nl (n : Nat) (h : n < 16) : hexDigit n ≠ '\n' := by
  interval_cases n <;> decide

theorem natDecCore_no_nl (fuel : Nat) : ∀ n, '\n' ∉ natDecCore fuel n := by
  induction fuel with
  | zero => intro n; simp [natDecCore]
  | succ fuel ih =>
    intro n
    rw [natDecCore]
    by_cases h : n < 10
    · simp only [if_pos h, List.mem_singleton]
      exact fun e => digitChar_ne_nl n h e.symm
    · simp only [if_neg h, List.mem_append, List.mem_singleton, not_or]
      exact ⟨ih (n / 10),
        fun e => digitChar_ne_nl (n % 10) (Nat.mod_lt n (by omega)) e.symm⟩

theorem noNL_natDec (n : Nat) : noNL (natDec n) := natDecCore_no_nl (n + 1) n

theorem noNL_intDec (i : Int) : noNL (intDec i) := by
  rw [intDec]
  by_cases h : i < 0
  · simp only [if_pos h]
    exact noNL_append (by decide) (noNL_natDec i.natAbs)
  · simp only [if_neg h]
    exact noNL_natDec i.toNat

theorem natHexCore_no_nl (fuel : Nat) : ∀ n, '\n' ∉ natHexCore fuel n := by
  induction fuel with
  | zero => intro n; simp [natHexCore]
  | succ fuel ih =>
    intro n
    rw [natHexCore]
    by_cases h : n < 16
    · simp only [if_pos h, List.mem_singleton]
      exact fun e => hexDigit_ne_nl n h e.symm
    · simp only [if_neg h, List.mem_append, List.mem_singleton, not_or]
      exact ⟨ih (n / 16),
        fun e => hexDigit_ne_nl (n % 16) (Nat.mod_lt n (by omega)) e.symm⟩

theorem data_singleton (c : Char) : (String.singleton c).data = [c] := rfl

theorem noNL_byteHex (b : Nat) : noNL (byteHex b) := by
  rw [byteHex]
  by_cases h : b < 16
  · simp only [if_pos h]
    refine noNL_append (by decide) ?_
    simp only [noNL, data_singleton, List.mem_singleton]
    exact fun e => hexDigit_ne_nl b h e.symm
  · simp only [if_neg h]
    exact natHexCore_no_nl (b + 1) b

theorem noNL_escapeChar (c : Char) : noNL (escapeChar c) := by
  rw [escapeChar]
  split_ifs with h1 h2 h3 h4 h5 h6 h7 h8
  · decide
  · decide
  · decide
  · decide
  · decide
  · decide
  · decide
  · exact noNL_append (by decide) (noNL_byteHex c.toNat)
  · simp only [noNL, data_singleton, List.mem_singleton]
    exact fun e => h3 e.symm

theorem noNL_escapeList (cs : List Char) : noNL (escapeList cs) := by
  induction cs with
  | nil => decide
  | cons c cs ih => rw [escapeList]; exact noNL_append (noNL_escapeChar c) ih

theorem noNL_jstrLit (s : String) : noNL (jstrLit s) := by
  rw [jstrLit]
  exact noNL_append (noNL_append (by decide) (noNL_escapeList s.data)) (by decide)

mutual

theorem noNL_jsonDumps : ∀ v : JValue, noNL (jsonDumps v)
  | JValue.jnum n => by rw [jsonDumps]; exact noNL_intDec n
  | JValue.jstr s => by rw [jsonDumps]; exact noNL_jstrLit s
  | JValue.jarr xs => by
      rw [jsonDumps]
      exact noNL_append (noNL_append (by decide) (noNL_dumpsList xs)) (by decide)
  | JValue.jobj fs => by
      rw [jsonDumps]
      exact noNL_append (noNL_append (by decide) (noNL_dumpsFields fs)) (by decide)

theorem noNL_dumpsList : ∀ xs : List JValue, noNL (dumpsList xs)
  | [] => by rw [dumpsList]; decide
  | [x] => by rw [dumpsList]; exact noNL_jsonDumps x
  | x :: y :: tl => by
      rw [dumpsList]
      exact noNL_append (noNL_append (noNL_jsonDumps x) (by decide))
        (noNL_dumpsList (y :: tl))

theorem noNL_dumpsFields : ∀ fs : List (String × JValue), noNL (dumpsFields fs)
  | [] => by rw [dumpsFields]; decide
  | [(k, v)] => by
      rw [dumpsFields]
      exact noNL_append (noNL_append (noNL_jstrLit k) (by decide)) (noNL_jsonDumps v)
  | (k, v) :: f :: tl => by
      rw [dumpsFields]
      exact noNL_append
        (noNL_append (noNL_append (noNL_append (noNL_jstrLit k) (by decide))
          (noNL_jsonDumps v)) (by decide))
        (noNL_dumpsFields (f :: tl))

end

/-! ## Shape lemmas shared by the claims -/

theorem collect_metrics_ok_shape {env : SystemEnv} {v : JValue}
    (h : collect_metrics env = Except.ok v) : ∃ fields, v = JValue.jobj fields := by
  rw [collect_metrics] at h
  cases hmf : env.mem_free with
  | error e => rw [hmf] at h; cases h
  | ok mf =>
    rw [hmf] at h
    cases hma : env.mem_alloc with
    | error e => rw [hma] at h; cases h
    | ok ma =>
      rw [hma] at h
      cases hfr : env.freq with
      | error e => rw [hfr] at h; cases h
      | ok fr => rw [hfr] at h; cases h; exact ⟨_, rfl⟩

theorem get_system_metrics_ok (env : SystemEnv) :
    ∃ fields, get_system_metrics env = Except.ok (JValue.jobj fields) := by
  rw [get_system_metrics]
  cases h : collect_metrics env with
  | ok v =>
    rcases collect_metrics_ok_shape h with ⟨fields, rfl⟩
    exact ⟨fields, rfl⟩
  | error e => exact ⟨_, rfl⟩

theorem scan_wifi_body_ok_shape {env : WifiEnv} {v : JValue}
    (h : scan_wifi_body env = Except.ok v) :
    ∃ nets recs, env.scan = Except.ok nets ∧
      format_networks env nets = Except.ok recs ∧ v = JValue.jarr recs := by
  rw [scan_wifi_body] at h
  split at h
  next e heq => cases h
  next u heq =>
    split at h
    next e heq2 => cases h
    next nets heq2 =>
      split at h
      next e heq3 => cases h
      next recs heq3 => cases h; exact ⟨nets, recs, heq2, heq3, rfl⟩

theorem scan_wifi_networks_ok (env : WifiEnv) :
    ∃ v, scan_wifi_networks env = Except.ok v ∧
      ((∃ recs, v = JValue.jarr recs) ∨
       ∃ e, v = JValue.jobj [("error", JValue.jstr e)]) := by
  rw [scan_wifi_networks]
  cases h : scan_wifi_body env with
  | ok v =>
    rcases scan_wifi_body_ok_shape h with ⟨nets, recs, _, _, rfl⟩
    exact ⟨JValue.jarr recs, rfl, Or.inl ⟨recs, rfl⟩⟩
  | error e => exact ⟨_, rfl, Or.inr ⟨e, rfl⟩⟩

/-! ## Claims -/

/-- Claim C1: every probe invocation emits exactly one marker line — the
fixed sentinel tag (one of the four) immediately followed, with no
separator, by the JSON serialization of the probe's result, and the
payload holds no embedded newline character. -/
theorem claim_C1_marker_line :
    ∀ (eg : GpioEnv) (ei : I2CEnv) (ew : WifiEnv) (es : SystemEnv),
      (∃ v, get_gpio_states eg = Except.ok v ∧
        send_gpio_states eg = Except.ok ("__GPIO_STATE__" ++ jsonDumps v) ∧
        noNL ("__GPIO_STATE__" ++ jsonDumps v) ∧ "__GPIO_STATE__" ∈ markerTags) ∧
      (∃ v, scan_i2c_devices ei = Except.ok v ∧
        send_i2c_scan ei = Except.ok ("__I2C_DEVICES__" ++ jsonDumps v) ∧
        noNL ("__I2C_DEVICES__" ++ jsonDumps v) ∧ "__I2C_DEVICES__" ∈ markerTags) ∧
      (∃ v, scan_wifi_networks ew = Except.ok v ∧
        send_wifi_scan ew = Except.ok ("__WIFI_SCAN__" ++ jsonDumps v) ∧
        noNL ("__WIFI_SCAN__" ++ jsonDumps v) ∧ "__WIFI_SCAN__" ∈ markerTags) ∧
      (∃ v, get_system_metrics es = Except.ok v ∧
        send_metrics es = Except.ok ("__MONITOR_DATA__" ++ jsonDumps v) ∧
        noNL ("__MONITOR_DATA__" ++ jsonDumps v) ∧ "__MONITOR_DATA__" ∈ markerTags) := by
  intro eg ei ew es
  refine ⟨⟨_, rfl, rfl, noNL_append (by decide) (noNL_jsonDumps _), by decide⟩,
    ⟨_, rfl, rfl, noNL_append (by decide) (noNL_jsonDumps _), by decide⟩, ?_, ?_⟩
  · rcases scan_wifi_networks_ok ew with ⟨v, hv, _⟩
    exact ⟨v, hv, by rw [send_wifi_scan, hv],
      noNL_append (by decide) (noNL_jsonDumps v), by decide⟩
  · rcases get_system_metrics_ok es with ⟨fields, hv⟩
    exact ⟨JValue.jobj fields, hv, by rw [send_metrics, hv],
      noNL_append (by decide) (noNL_jsonDumps _), by decide⟩

/-- Claim C6: whatever the underlying hardware accessors do, each of the
four probe functions returns a value and never propagates a failure: the
payload is a (possibly incomplete) aggregate or an error record. -/
theorem claim_C6_no_propagation :
    ∀ (eg : GpioEnv) (ei : I2CEnv) (ew : WifiEnv) (es : SystemEnv),
      (∃ entries, get_gpio_states eg = Except.ok (JValue.jobj entries)) ∧
      (∃ addrs, scan_i2c_devices ei = Except.ok (JValue.jarr addrs)) ∧
      (∃ v, scan_wifi_networks ew = Except.ok v ∧
        ((∃ recs, v = JValue.jarr recs) ∨
         ∃ e, v = JValue.jobj [("error", JValue.jstr e)])) ∧
      (∃ fields, get_system_metrics es = Except.ok (JValue.jobj fields)) := by
  intro eg ei ew es
  exact ⟨⟨_, rfl⟩, ⟨_, rfl⟩, scan_wifi_networks_ok ew, get_system_metrics_ok es⟩

theorem gpio_entries_mem {env : GpioEnv} {p : Nat} {v : Int} :
    ∀ {pins : List Nat}, p ∈ pins → env.readPin p = Except.ok v →
      (pinLabel p, JValue.jnum v) ∈ gpio_entries env pins := by
  intro pins
  induction pins with
  | nil => intro hp _; cases hp
  | cons q qs ih =>
    intro hp hv
    rcases List.mem_cons.mp hp with rfl | hp2
    · simp only [gpio_entries, hv]
      exact List.mem_cons_self _ _
    · cases hq : env.readPin q with
      | ok w =>
        simp only [gpio_entries, hq]
        exact List.mem_cons_of_mem _ (ih hp2 hv)
      | error e =>
        simp only [gpio_entries, hq]
        exact ih hp2 hv

theorem gpio_entries_all_fail {env : GpioEnv} :
    ∀ {pins : List Nat}, (∀ p ∈ pins, ∃ e, env.readPin p = Except.error e) →
      gpio_entries env pins = [] := by
  intro pins
  induction pins with
  | nil => intro _; rfl
  | cons q qs ih =>
    intro h
    rcases h q (List.mem_cons_self q qs) with ⟨e, he⟩
    simp only [gpio_entries, he]
    exact ih fun p hp => h p (List.mem_cons_of_mem q hp)

theorem gpio_entries_key {env : GpioEnv} {kv : String × JValue} :
    ∀ {pins : List Nat}, kv ∈ gpio_entries env pins → ∃ p ∈ pins, kv.1 = pinLabel p := by
  intro pins
  induction pins with
  | nil => intro h; simp [gpio_entries] at h
  | cons q qs ih =>
    intro h
    cases hq : env.readPin q with
    | ok w =>
      simp only [gpio_entries, hq] at h
      rcases List.mem_cons.mp h with rfl | h2
      · exact ⟨q, List.mem_cons_self q qs, rfl⟩
      · rcases ih h2 with ⟨p, hp, hk⟩
        exact ⟨p, List.mem_cons_of_mem q hp, hk⟩
    | error e =>
      simp only [gpio_entries, hq] at h
      rcases ih h with ⟨p, hp, hk⟩
      exact ⟨p, List.mem_cons_of_mem q hp, hk⟩

/-- Claim C2: the failure of one unit never changes the presence or value
of a successfully read unit in the aggregate — a successfully read GPIO
pin always appears with its level, an address scanned on a successfully
initialized bus always appears in the I2C result — and in Scenario A
(pins [2,4], pin 4 raises, pin 2 reads 1) the result is exactly the
single entry pin_2 = 1. -/
theorem claim_C2_unit_isolation :
    (∀ (env : GpioEnv) (pins : List Nat) (p : Nat) (v : Int),
      p ∈ pins → env.readPin p = Except.ok v →
      (pinLabel p, JValue.jnum v) ∈ gpio_entries env pins) ∧
    (∀ (env : I2CEnv) (configs : List I2CConfig) (c : I2CConfig) (ds : List Int) (a : Int),
      c ∈ configs → env.scanBus c = Except.ok ds → a ∈ ds →
      a ∈ i2c_scan_over env configs) ∧
    gpio_entries gpioEnvA [2, 4] = [("pin_2", JValue.jnum 1)] := by
  refine ⟨fun env pins p v hp hv => gpio_entries_mem hp hv,
    fun env configs c ds a hc hok ha => ?_, rfl⟩
  have hmem : a ∈ pdedup [] (flattenSucc env configs) :=
    (mem_pdedup _ _).mpr ⟨(mem_flattenSucc env configs).mpr ⟨c, hc, ds, hok, ha⟩, by simp⟩
  rw [i2c_scan_over_eq, ← pdedup_nil_eq]
  exact hmem

/-- Witness for C2 at a concrete input: pin 2 of Scenario A is read
successfully and its entry is present. -/
theorem claim_C2_unit_isolation_witness :
    (2 ∈ [2, 4] ∧ gpioEnvA.readPin 2 = Except.ok 1) ∧
    ("pin_2", JValue.jnum 1) ∈ gpio_entries gpioEnvA [2, 4] :=
  ⟨⟨by decide, rfl⟩, claim_C2_unit_isolation.1 gpioEnvA [2, 4] 2 1 (by decide) rfl⟩

/-- Claim C7: when every candidate pin read fails the GPIO probe returns
the empty mapping, not an error record; and the error-record shape is
never produced by the pin loop (it could only come from a failure outside
the per-pin containment, which the probe body cannot raise). -/
theorem claim_C7_gpio_empty_not_error :
    ∀ env : GpioEnv,
      ((∀ p ∈ pin_numbers, ∃ e, env.readPin p = Except.error e) →
        get_gpio_states env = Except.ok (JValue.jobj [])) ∧
      ∀ s, get_gpio_states env ≠ Except.ok (JValue.jobj [("error", JValue.jstr s)]) := by
  intro env
  constructor
  · intro h
    rw [get_gpio_states, gpio_entries_all_fail h]
    rfl
  · intro s hcontra
    have h2 : Except.ok (JValue.jobj (gpio_entries env pin_numbers)) =
        Except.ok (JValue.jobj [("error", JValue.jstr s)]) := hcontra
    have h3 : gpio_entries env pin_numbers = [("error", JValue.jstr s)] := by
      injection Except.ok.inj h2
    have h4 : (("error", JValue.jstr s) : String × JValue) ∈ gpio_entries env pin_numbers := by
      rw [h3]
      exact List.mem_cons_self _ _
    rcases gpio_entries_key h4 with ⟨p, hp, hk⟩
    have hk2 : "error" = pinLabel p := hk
    fin_cases hp <;> exact absurd hk2 (by decide)

/-- Witness for C7: with every pin read failing, the probe returns the
empty mapping. -/
theorem claim_C7_gpio_empty_not_error_witness :
    get_gpio_states gpioEnvFail = Except.ok (JValue.jobj []) :=
  (claim_C7_gpio_empty_not_error gpioEnvFail).1 (fun _ _ => ⟨"unreadable", rfl⟩)

/-- Claim C4: the successful I2C result has no duplicate address, equals
the first-occurrence deduplication of the successful scans taken in
configuration order then scan order, and — assuming every bus scan yields
addresses in [0,127] — contains only addresses in [0,127]. -/
theorem claim_C4_i2c_dedup_order :
    ∀ (env : I2CEnv) (configs : List I2CConfig),
      (i2c_scan_over env configs).Nodup ∧
      i2c_scan_over env configs = dedupFirst (flattenSucc env configs) ∧
      ((∀ c ds, env.scanBus c = Except.ok ds → ∀ a ∈ ds, 0 ≤ a ∧ a ≤ 127) →
        ∀ a ∈ i2c_scan_over env configs, 0 ≤ a ∧ a ≤ 127) := by
  intro env configs
  refine ⟨?_, i2c_scan_over_eq env configs, ?_⟩
  · rw [i2c_scan_over_eq, ← pdedup_nil_eq]
    exact nodup_pdedup _ []
  · intro hrange a ha
    rw [i2c_scan_over_eq, ← pdedup_nil_eq] at ha
    rcases (mem_pdedup _ _).mp ha with ⟨hf, _⟩
    rcases (mem_flattenSucc env configs).mp hf with ⟨c, _, ds, hok, hd⟩
    exact hrange c ds hok a hd

/-- Witness for C4 at a concrete input: address 60 is in the result and
in range. -/
theorem claim_C4_i2c_dedup_order_witness :
    (60 : Int) ∈ i2c_scan_over i2cEnvW4 i2c_configs ∧
      (0 ≤ (60 : Int) ∧ (60 : Int) ≤ 127) := by
  have hr : ∀ c ds, i2cEnvW4.scanBus c = Except.ok ds → ∀ a ∈ ds, 0 ≤ a ∧ a ≤ 127 := by
    intro c ds h a ha
    by_cases hc : c.id = 0
    · simp only [i2cEnvW4, hc, if_pos] at h
      cases h
      fin_cases ha <;> omega
    · simp only [i2cEnvW4, hc, if_neg, if_false] at h
      cases h
      fin_cases ha <;> omega
  have hmem : (60 : Int) ∈ i2c_scan_over i2cEnvW4 i2c_configs := by decide
  exact ⟨hmem, (claim_C4_i2c_dedup_order i2cEnvW4 i2c_configs).2.2 hr 60 hmem⟩

theorem flattenSucc_filter (env : I2CEnv) :
    ∀ configs, flattenSucc env (configs.filter fun c => (env.scanBus c).isOk) =
      flattenSucc env configs := by
  intro configs
  induction configs with
  | nil => rfl
  | cons c cs ih =>
    cases hc : env.scanBus c with
    | ok ds =>
      have hb : (env.scanBus c).isOk = true := by rw [hc]; rfl
      rw [List.filter_cons, hb, if_pos rfl]
      simp only [flattenSucc, hc, ih]
    | error e =>
      have hb : (env.scanBus c).isOk = false := by rw [hc]; rfl
      rw [List.filter_cons, hb, if_neg Bool.false_ne_true, ih]
      simp only [flattenSucc, hc, List.nil_append]

/-- Claim C5: a failing bus configuration is skipped and the remaining
configurations still contribute — the scan result equals the scan over
the successfully scanned configurations only — and in Scenario B the
result is the address list [60, 104], not an error record. -/
theorem claim_C5_i2c_config_skip :
    (∀ (env : I2CEnv) (configs : List I2CConfig),
      i2c_scan_over env configs =
        i2c_scan_over env (configs.filter fun c => (env.scanBus c).isOk)) ∧
    scan_i2c_devices i2cEnvB = Except.ok (JValue.jarr [JValue.jnum 60, JValue.jnum 104]) := by
  refine ⟨fun env configs => ?_, rfl⟩
  rw [i2c_scan_over_eq, i2c_scan_over_eq, flattenSucc_filter]

/-- Claim C8: when metric collection throws before the metric record is
completed, the System probe returns exactly the two-field record of the
failure description and an error-path clock reading. -/
theorem claim_C8_system_error_timestamp :
    ∀ (env : SystemEnv) (e : String),
      collect_metrics env = Except.error e →
      get_system_metrics env = Except.ok (JValue.jobj
        [("error", JValue.jstr e), ("timestamp", JValue.jnum env.timeErr)]) := by
  intro env e h
  rw [get_system_metrics, h]
  rfl

/-- Witness for C8 at a concrete input. -/
theorem claim_C8_system_error_timestamp_witness :
    get_system_metrics sysEnvErr = Except.ok (JValue.jobj
      [("error", JValue.jstr "gc unavailable"), ("timestamp", JValue.jnum 9)]) :=
  claim_C8_system_error_timestamp sysEnvErr "gc unavailable" rfl

/-- Claim C9: when the platform exposes no temperature attribute, or the
temperature read raises, the successful System result omits the temp
field entirely while containing memory.free, memory.allocated, freq and
timestamp; the absence of temperature is not an error. -/
theorem claim_C9_temp_omitted :
    ∀ (env : SystemEnv) (mf ma fr : Int),
      env.mem_free = Except.ok mf → env.mem_alloc = Except.ok ma →
      env.freq = Except.ok fr →
      (env.hasTemp = false ∨ ∃ e, env.temperature = Except.error e) →
      get_system_metrics env = Except.ok (JValue.jobj
        [("memory", JValue.jobj [("free", JValue.jnum mf), ("allocated", JValue.jnum ma)]),
         ("freq", JValue.jnum fr), ("timestamp", JValue.jnum env.timeTry)]) := by
  intro env mf ma fr hmf hma hfr htemp
  have hnil : (if env.hasTemp then
      match env.temperature with
      | Except.ok t => [("temp", JValue.jnum t)]
      | Except.error _ => []
    else []) = ([] : List (String × JValue)) := by
    rcases htemp with ht | ⟨e, he⟩
    · simp [ht]
    · cases hT : env.hasTemp
      · simp
      · simp [he]
  simp only [get_system_metrics, collect_metrics, hmf, hma, hfr, hnil,
    List.append_nil, pytry]

/-- Witness for C9 at a concrete input. -/
theorem claim_C9_temp_omitted_witness :
    get_system_metrics sysEnvOk = Except.ok (JValue.jobj
      [("memory", JValue.jobj [("free", JValue.jnum 1000), ("allocated", JValue.jnum 500)]),
       ("freq", JValue.jnum 160000000), ("timestamp", JValue.jnum 42)]) :=
  claim_C9_temp_omitted sysEnvOk 1000 500 160000000 rfl rfl rfl (Or.inl rfl)

theorem format_networks_forall2 {env : WifiEnv} :
    ∀ {nets : List WifiNet} {recs : List JValue},
      format_networks env nets = Except.ok recs →
      List.Forall₂ (fun n r => format_net env n = Except.ok r) nets recs := by
  intro nets
  induction nets with
  | nil => intro recs h; rw [format_networks] at h; cases h; exact List.Forall₂.nil
  | cons n ns ih =>
    intro recs h
    rw [format_networks] at h
    split at h
    next e heq => cases h
    next r heq =>
      split at h
      next e heq2 => cases h
      next rs heq2 => cases h; exact List.Forall₂.cons heq (ih heq2)

theorem format_networks_fail {env : WifiEnv} :
    ∀ {nets : List WifiNet},
      (∃ n ∈ nets, ∃ e, format_net env n = Except.error e) →
      ∃ msg, format_networks env nets = Except.error msg := by
  intro nets
  induction nets with
  | nil => rintro ⟨n, hn, _⟩; cases hn
  | cons m ms ih =>
    rintro ⟨n, hn, e, he⟩
    cases hf : format_net env m with
    | error e2 => exact ⟨e2, by rw [format_networks, hf]⟩
    | ok r =>
      rcases List.mem_cons.mp hn with rfl | hn2
      · rw [hf] at he; cases he
      · rcases ih ⟨n, hn2, e, he⟩ with ⟨msg, hmsg⟩
        exact ⟨msg, by rw [format_networks, hf, hmsg]⟩

theorem hexDigit_mem_hex (d : Nat) (h : d < 16) :
    hexDigit d ∈ ("0123456789abcdef").data := by
  interval_cases d <;> decide

theorem natHexCore_small (fuel n : Nat) (hf : 0 < fuel) (hn : n < 16) :
    natHexCore fuel n = [hexDigit n] := by
  cases fuel with
  | zero => omega
  | succ f => rw [natHexCore, if_pos hn]

theorem byteHex_digits (b : Nat) (h : b < 256) :
    (byteHex b).data = [hexDigit (b / 16), hexDigit (b % 16)] := by
  rw [byteHex]
  by_cases h16 : b < 16
  · rw [if_pos h16]
    have h1 : b / 16 = 0 := by omega
    have h2 : b % 16 = b := by omega
    rw [h1, h2]
    rfl
  · rw [if_neg h16, natHex, natHexCore, if_neg h16,
      natHexCore_small b (b / 16) (by omega) (by omega)]
    rfl

/-- Claim C3: each successfully formatted network record has the decoded
SSID text (empty string when the SSID bytes are absent), the BSSID bytes
rendered as lowercase colon-separated two-digit hex, the channel and
RSSI of the tuple, and the security ordinal's label under the fixed
table with every ordinal outside 0-4 mapped to "Unknown" without a
fault; the probe emits these records in scan order, one per tuple. -/
theorem claim_C3_wifi_record_fields :
    (∀ (env : WifiEnv) (net : WifiNet) (r : JValue),
      format_net env net = Except.ok r →
      ∃ ssid, ((net.ssidBytes = [] ∧ ssid = "") ∨
          (net.ssidBytes ≠ [] ∧ env.decodeUtf8 net.ssidBytes = Except.ok ssid)) ∧
        r = JValue.jobj
          [("ssid", JValue.jstr ssid),
           ("bssid", JValue.jstr (bssidStr net.bssid)),
           ("channel", JValue.jnum net.channel),
           ("rssi", JValue.jnum net.rssi),
           ("security", JValue.jstr (securityLabel net.security))]) ∧
    (∀ b : Nat, b < 256 →
      (byteHex b).data = [hexDigit (b / 16), hexDigit (b % 16)] ∧
      ∀ c ∈ (byteHex b).data, c ∈ ("0123456789abcdef").data) ∧
    (∀ s : Int, s ≠ 0 → s ≠ 1 → s ≠ 2 → s ≠ 3 → s ≠ 4 →
      securityLabel s = "Unknown") ∧
    (∀ (env : WifiEnv) (nets : List WifiNet) (recs : List JValue),
      env.activate = Except.ok () → env.scan = Except.ok nets →
      format_networks env nets = Except.ok recs →
      scan_wifi_networks env = Except.ok (JValue.jarr recs) ∧
      List.Forall₂ (fun n r => format_net env n = Except.ok r) nets recs) := by
  refine ⟨?_, ?_, ?_, ?_⟩
  · intro env net r h
    rw [format_net] at h
    split at h
    next e heq => cases h
    next ssid heq =>
      cases h
      rw [ssidVal] at heq
      by_cases hb : net.ssidBytes = []
      · rw [if_pos hb] at heq
        injection heq with h2
        exact ⟨ssid, Or.inl ⟨hb, h2.symm⟩, rfl⟩
      · rw [if_neg hb] at heq
        exact ⟨ssid, Or.inr ⟨hb, heq⟩, rfl⟩
  · intro b hb
    refine ⟨byteHex_digits b hb, ?_⟩
    rw [byteHex_digits b hb]
    intro c hc
    rcases List.mem_cons.mp hc with rfl | hc2
    · exact hexDigit_mem_hex (b / 16) (by omega)
    · rcases List.mem_cons.mp hc2 with rfl | hc3
      · exact hexDigit_mem_hex (b % 16) (by omega)
      · cases hc3
  · intro s h0 h1 h2 h3 h4
    rw [securityLabel, if_neg h0, if_neg h1, if_neg h2, if_neg h3, if_neg h4]
  · intro env nets recs hact hscan hfmt
    refine ⟨?_, format_networks_forall2 hfmt⟩
    simp only [scan_wifi_networks, scan_wifi_body, hact, hscan, hfmt, pytry]

/-- Witness for C3 at a concrete input: the record of `wifiNetW`. -/
theorem claim_C3_wifi_record_fields_witness :
    ∃ ssid, ((wifiNetW.ssidBytes = [] ∧ ssid = "") ∨
        (wifiNetW.ssidBytes ≠ [] ∧
          wifiEnvW.decodeUtf8 wifiNetW.ssidBytes = Except.ok ssid)) ∧
      JValue.jobj
          [("ssid", JValue.jstr "hi"),
           ("bssid", JValue.jstr "aa:bb:cc:01:02:03"),
           ("channel", JValue.jnum 6),
           ("rssi", JValue.jnum (-40)),
           ("security", JValue.jstr "WPA2-PSK")] = JValue.jobj
          [("ssid", JValue.jstr ssid),
           ("bssid", JValue.jstr (bssidStr wifiNetW.bssid)),
           ("channel", JValue.jnum wifiNetW.channel),
           ("rssi", JValue.jnum wifiNetW.rssi),
           ("security", JValue.jstr (securityLabel wifiNetW.security))] :=
  claim_C3_wifi_record_fields.1 wifiEnvW wifiNetW
    (JValue.jobj
      [("ssid", JValue.jstr "hi"),
       ("bssid", JValue.jstr "aa:bb:cc:01:02:03"),
       ("channel", JValue.jnum 6),
       ("rssi", JValue.jnum (-40)),
       ("security", JValue.jstr "WPA2-PSK")]) rfl

/-- Claim C10: the Wi-Fi probe has no per-network fault containment —
when formatting any scanned network fails, the whole result becomes an
error record; concretely, with a first network that formats fine and a
second whose SSID bytes cannot be decoded, the probe discards the
successful record and returns only the error record. -/
theorem claim_C10_wifi_whole_error :
    (∀ (env : WifiEnv) (nets : List WifiNet),
      env.activate = Except.ok () → env.scan = Except.ok nets →
      (∃ n ∈ nets, ∃ e, format_net env n = Except.error e) →
      ∃ msg, scan_wifi_networks env =
        Except.ok (JValue.jobj [("error", JValue.jstr msg)])) ∧
    (format_net wifiEnvBad wifiNetOkW =
        Except.ok (JValue.jobj
          [("ssid", JValue.jstr "hi"),
           ("bssid", JValue.jstr "01:02:03:04:05:06"),
           ("channel", JValue.jnum 1),
           ("rssi", JValue.jnum (-30)),
           ("security", JValue.jstr "Open")]) ∧
      scan_wifi_networks wifiEnvBad =
        Except.ok (JValue.jobj [("error", JValue.jstr "invalid utf-8")])) := by
  constructor
  · intro env nets hact hscan hfail
    rcases format_networks_fail hfail with ⟨msg, hmsg⟩
    exact ⟨msg, by simp only [scan_wifi_networks, scan_wifi_body, hact, hscan, hmsg, pytry]⟩
  · exact ⟨rfl, rfl⟩

/-- Witness for C10 at a concrete input. -/
theorem claim_C10_wifi_whole_error_witness :
    ∃ msg, scan_wifi_networks wifiEnvBad =
      Except.ok (JValue.jobj [("error", JValue.jstr msg)]) :=
  claim_C10_wifi_whole_error.1 wifiEnvBad [wifiNetOkW, wifiNetBadW] rfl rfl
    ⟨wifiNetBadW, List.mem_cons_of_mem _ (List.mem_cons_self _ _), "invalid utf-8", rfl⟩
